import Mathlib

/-
Verification of the speedo report printer
(`src/speedo/include/speedo/printer.h`).

The printer renders a fixed-width report for a list of measurement
aggregates on `std::cerr`.  The embedding below models each member
function of `class Printer` as a pure function producing the list of
output lines (one `String` per line, without the terminating newline);
`std::setw`/`std::setfill`/`std::left`/`std::right` formatting of a
single stream item is modelled by `padTo`.
-/

namespace Speedo

/-- Modelled from the spec: a checkpoint, the read-only view
`{file : text, line : integer}` consumed by the renderer
(`multi_measurement.h` is not part of the sources; only the accessors
`get_file()` / `get_line()` are used by the printer). -/
structure Checkpoint where
  file : String
  line : Int

/-- Modelled from the spec: the read-only aggregate interface consumed by
the renderer: start and end checkpoints, sample count, average duration
and overall duration (the printer reads them through `get_start()`,
`get_end()`, `count()`, `get_average_duration().count()` and
`get_overall_duration().count()`). -/
structure MultiMeasurement where
  start : Checkpoint
  «end» : Checkpoint
  count : Int
  average_duration : Int
  overall_duration : Int

/-- Width of the output lines (`Printer::line_width`). -/
def line_width : Nat := 80

/-- Width of the File column (`Printer::file_col_width`). -/
def file_col_width : Nat := 30

/-- Width of the Line column (`Printer::line_col_width`). -/
def line_col_width : Nat := 6

/-- Width of the Count column (`Printer::count_col_width`). -/
def count_col_width : Nat := 10

/-- Width of the Average column (`Printer::avg_duration_col_width`). -/
def avg_duration_col_width : Nat := 15

/-- Width of the Overall column (`Printer::ovr_duration_col_width`). -/
def ovr_duration_col_width : Nat := 15

/-- Model of emitting one item under
`std::setfill(fill) << std::setw(w) << (std::left / std::right)`:
an item shorter than `w` is padded with `fill` to width `w` (on the
right under `std::left`, on the left under `std::right`); an item of
width at least `w` is emitted in full, untruncated. -/
def padTo (fill : Char) (alignLeft : Bool) (w : Nat) (s : String) : String :=
  if w ≤ s.length then s
  else if alignLeft then s ++ String.mk (List.replicate (w - s.length) fill)
  else String.mk (List.replicate (w - s.length) fill) ++ s

/-- Decimal rendering of an integer by `operator<<` on a stream: the
digits of the magnitude, preceded by a minus sign when negative. -/
def intStr (n : Int) : String :=
  if n < 0 then "-" ++ Nat.repr n.natAbs else Nat.repr n.natAbs

/-- The character class of `file_name.find_last_of("/\\")`. -/
def isPathSep (c : Char) : Bool := c = '/' || c = '\\'

/-- Model of `Printer::crop_path`:
`file_name.substr(file_name.find_last_of("/\\") + 1)` — the suffix of
`file_name` strictly after the last `/` or `\`.  When neither occurs,
`find_last_of` returns `npos` and `npos + 1` wraps to `0`, so the whole
string is returned.  Equivalently: the longest separator-free suffix. -/
def crop_path (file_name : String) : String :=
  String.mk ((file_name.data.reverse.takeWhile (fun c => !(isPathSep c))).reverse)

/-- The loop of `Printer::insert_separators`.  At the character at index
`pos`, the quantity `n_str.length()-1-pos` tested by the loop is exactly
the number of characters after the current one, i.e. the length of the
remaining suffix `rest`; a comma is appended after the character when
that length is at least 3 and divisible by 3. -/
def sepGo : List Char → List Char
  | [] => []
  | c :: rest =>
    if 3 ≤ rest.length ∧ rest.length % 3 = 0 then c :: ',' :: sepGo rest
    else c :: sepGo rest

/-- Model of `Printer::insert_separators(long int n)`: stream `n` into a string
and run the comma-inserting loop over all its characters (sign
included). -/
def insert_separators (n : Int) : String :=
  String.mk (sepGo (intStr n).data)

/-- Model of `Printer::print_hline(char fill)`:
`std::cerr << std::setfill(fill) << std::setw(line_width) << fill << std::endl`
— one line: the single character `fill` padded with `fill` to the full
line width. -/
def print_hline (fill : Char) : List String :=
  [padTo fill false line_width (String.mk [fill])]

/-- The title `" PROFILING WITH SPEEDO "` of `Printer::print_title`. -/
def title : String := " PROFILING WITH SPEEDO "

/-- Model of `Printer::print_title`: three lines filled with `#`; the middle line
is `setw((line_width-title.length())/2) << fill`, the title, one extra
fill character when the title length is odd, and again
`setw((line_width-title.length())/2) << fill`. -/
def print_title : List String :=
  [ padTo '#' false line_width (String.mk ['#']),
    padTo '#' false ((line_width - title.length) / 2) (String.mk ['#'])
      ++ title
      ++ (if title.length % 2 > 0 then String.mk ['#'] else "")
      ++ padTo '#' false ((line_width - title.length) / 2) (String.mk ['#']),
    padTo '#' false line_width (String.mk ['#']) ]

/-- Model of `Printer::print_header`: the column-label row (File left-aligned,
the rest right-aligned, fields separated by `|`) followed by an
`=`-filled horizontal line. -/
def print_header : List String :=
  (padTo ' ' true file_col_width "File" ++ "|"
    ++ padTo ' ' false line_col_width "Line " ++ "|"
    ++ padTo ' ' false count_col_width "Count " ++ "|"
    ++ padTo ' ' false avg_duration_col_width "Average [us] " ++ "|"
    ++ padTo ' ' false ovr_duration_col_width "Overall [us]")
  :: print_hline '='

/-- The file name printed in an aggregate's second row: `file_end`
(the cropped end file) after the conditional `file_end.clear()`
executed when it equals `file_start` (the cropped start file). -/
def file_shown_in_row_end (m : MultiMeasurement) : String :=
  if crop_path m.start.file = crop_path m.«end».file then ""
  else crop_path m.«end».file

/-- Model of `Printer::print(const MultiMeasurement&)`: the two rows printed for
one aggregate.  Row 1: cropped start file (left), start line (right),
a blank `" "` under `setw(count_col_width)`, a blank `" "` under
`setw(avg_duration_col_width)`, each followed by `|`, and nothing
after the final `|`.  Row 2: the conditionally-cleared end file (left),
end line, count, and the two separator-formatted durations. -/
def print_measurement (m : MultiMeasurement) : List String :=
  [ padTo ' ' true file_col_width (crop_path m.start.file) ++ "|"
      ++ padTo ' ' false line_col_width (intStr m.start.line) ++ "|"
      ++ padTo ' ' false count_col_width " " ++ "|"
      ++ padTo ' ' false avg_duration_col_width " " ++ "|",
    padTo ' ' true file_col_width (file_shown_in_row_end m) ++ "|"
      ++ padTo ' ' false line_col_width (intStr m.«end».line) ++ "|"
      ++ padTo ' ' false count_col_width (intStr m.count) ++ "|"
      ++ padTo ' ' false avg_duration_col_width (insert_separators m.average_duration) ++ "|"
      ++ padTo ' ' false ovr_duration_col_width (insert_separators m.overall_duration) ]

/-- The loop of `Printer::print()`:
`for i in [0, size): print(measurements_[i]); print_hline(i < size-1 ? '-' : '#')`.
The test `i < measurements_.size()-1` holds exactly when the current
aggregate is not the last one, so every aggregate is followed by a
`-`-filled line except the last, which is followed by a `#`-filled
line. -/
def print_loop : List MultiMeasurement → List String
  | [] => []
  | [m] => print_measurement m ++ print_hline '#'
  | m :: m2 :: rest => print_measurement m ++ print_hline '-' ++ print_loop (m2 :: rest)

/-- Model of `Printer::print()`: title banner, column header, then the
per-aggregate loop. -/
def print_all (ms : List MultiMeasurement) : List String :=
  print_title ++ print_header ++ print_loop ms

/-- Model of `class Printer`: owns the ordered sequence `measurements_`. -/
structure Printer where
  measurements_ : List MultiMeasurement

/-- Model of `Printer::add`: `measurements_.push_back(measurement)`. -/
def Printer.add (p : Printer) (m : MultiMeasurement) : Printer :=
  ⟨p.measurements_ ++ [m]⟩

/-- Model of `Printer::print() const`: a `const` member function; it only reads
`measurements_` and emits the report, so it is modelled as returning
the rendered lines together with the (unchanged) printer state. -/
def Printer.print (p : Printer) : List String × Printer :=
  (print_all p.measurements_, p)

/-! Spec-side definitions, written from the wording of the claims and
compared with the embedded printer. -/

/-- Spec-side: a value left-aligned in a `w`-wide, space-padded column. -/
def leftAligned (w : Nat) (s : String) : String :=
  s ++ String.mk (List.replicate (w - s.length) ' ')

/-- Spec-side: a value right-aligned in a `w`-wide, space-padded column. -/
def rightAligned (w : Nat) (s : String) : String :=
  String.mk (List.replicate (w - s.length) ' ') ++ s

/-- Spec-side: a blank field, space-padded to the full column width. -/
def blankField (w : Nat) : String :=
  String.mk (List.replicate w ' ')

/-- Spec-side (claim wording): Row A of an aggregate shows the base name
of `start.file` left-aligned in the 30-wide File column and `start.line`
right-aligned in the 6-wide Line column; the Count and Average fields
are blank (space-padded to their widths) and no Overall field is
printed at all. -/
def specRowA (m : MultiMeasurement) : String :=
  leftAligned 30 (crop_path m.start.file) ++ "|"
    ++ rightAligned 6 (intStr m.start.line) ++ "|"
    ++ blankField 10 ++ "|"
    ++ blankField 15 ++ "|"

/-- Spec-side (claim wording): Row B of an aggregate shows the
(suppressed-if-equal) end file name, `end.line`, the count as a plain
integer, and the average and overall durations with thousands
separators. -/
def specRowB (m : MultiMeasurement) : String :=
  leftAligned 30 (file_shown_in_row_end m) ++ "|"
    ++ rightAligned 6 (intStr m.«end».line) ++ "|"
    ++ rightAligned 10 (intStr m.count) ++ "|"
    ++ rightAligned 15 (insert_separators m.average_duration) ++ "|"
    ++ rightAligned 15 (insert_separators m.overall_duration)

/-- Spec-side: on a reversed digit list, insert a comma after every
complete group of 3 digits that is followed by at least one further
digit. -/
def groupRev : List Char → List Char
  | a :: b :: c :: d :: rest => a :: b :: c :: ',' :: groupRev (d :: rest)
  | l => l

/-- Spec-side (claim wording): a comma after every group of 3 digits
counted from the least-significant digit, and no trailing comma after
the final digit. -/
def commaGrouped (l : List Char) : List Char :=
  (groupRev l.reverse).reverse

/-- Proof helper: `sepGo` specialised to a list that is followed (in the
full scanned string) by a nonempty suffix whose length is a multiple
of 3; the final character then receives a comma. -/
def sepGoM : List Char → List Char
  | [] => []
  | c :: rest =>
    if rest.length % 3 = 0 then c :: ',' :: sepGoM rest
    else c :: sepGoM rest

/-- The end-to-end scenario aggregate of the spec:
start = ("src/a.cpp", 10), end = ("src/a.cpp", 20), count = 2,
average 1500 µs, overall 3000 µs. -/
def scenario : MultiMeasurement :=
  ⟨⟨"src/a.cpp", 10⟩, ⟨"src/a.cpp", 20⟩, 2, 1500, 3000⟩

/-- An aggregate whose start and end files have different base names. -/
def twoFiles : MultiMeasurement :=
  ⟨⟨"a.cpp", 1⟩, ⟨"b.cpp", 2⟩, 1, 0, 0⟩

/-- An aggregate whose end file path ends in a separator, so its base
name is empty although it differs from the start base name. -/
def emptyEndBase : MultiMeasurement :=
  ⟨⟨"a.cpp", 1⟩, ⟨"dir/", 2⟩, 1, 0, 0⟩

/-- An aggregate whose cropped start file name is exactly 30 characters
long. -/
def wideFile30 : MultiMeasurement :=
  ⟨⟨"aaaaaaaaaaaaaaaaaaaaaaaaaaaaaa", 1⟩, ⟨"b.cpp", 2⟩, 1, 0, 0⟩

/-- An aggregate whose cropped start file name is 31 characters long. -/
def wideFile31 : MultiMeasurement :=
  ⟨⟨"aaaaaaaaaaaaaaaaaaaaaaaaaaaaaaa", 1⟩, ⟨"b.cpp", 2⟩, 1, 0, 0⟩

/-! Helper lemmas. -/

theorem sepGo_short (l : List Char) (h : l.length ≤ 3) : sepGo l = l := by
  match l with
  | [] => rfl
  | [a] => simp [sepGo]
  | [a, b] => simp [sepGo]
  | [a, b, c] => simp [sepGo]
  | a :: b :: c :: d :: rest => simp at h

theorem sepGo_append (xs ys : List Char) (h1 : 0 < ys.length)
    (h2 : ys.length % 3 = 0) : sepGo (xs ++ ys) = sepGoM xs ++ sepGo ys := by
  induction xs with
  | nil => simp [sepGoM]
  | cons c rest ih =>
    have hlen : (rest ++ ys).length = rest.length + ys.length :=
      List.length_append _ _
    by_cases hc : rest.length % 3 = 0
    · have hA : 3 ≤ (rest ++ ys).length ∧ (rest ++ ys).length % 3 = 0 := by
        rw [hlen]
        omega
      show (if 3 ≤ (rest ++ ys).length ∧ (rest ++ ys).length % 3 = 0
            then c :: ',' :: sepGo (rest ++ ys)
            else c :: sepGo (rest ++ ys))
          = (if rest.length % 3 = 0
            then c :: ',' :: sepGoM rest
            else c :: sepGoM rest) ++ sepGo ys
      rw [if_pos hA, if_pos hc, ih]
      rfl
    · have hA : ¬(3 ≤ (rest ++ ys).length ∧ (rest ++ ys).length % 3 = 0) := by
        rw [hlen]
        omega
      show (if 3 ≤ (rest ++ ys).length ∧ (rest ++ ys).length % 3 = 0
            then c :: ',' :: sepGo (rest ++ ys)
            else c :: sepGo (rest ++ ys))
          = (if rest.length % 3 = 0
            then c :: ',' :: sepGoM rest
            else c :: sepGoM rest) ++ sepGo ys
      rw [if_neg hA, if_neg hc, ih]
      rfl

theorem sepGoM_eq (xs : List Char) (h : xs ≠ []) :
    sepGoM xs = sepGo xs ++ [','] := by
  induction xs with
  | nil => exact absurd rfl h
  | cons c rest ih =>
    cases rest with
    | nil => simp [sepGoM, sepGo]
    | cons d rest2 =>
      have hne : d :: rest2 ≠ [] := by simp
      have hlen : (d :: rest2).length = rest2.length + 1 := rfl
      by_cases hc : (d :: rest2).length % 3 = 0
      · have h3 : 3 ≤ (d :: rest2).length := by omega
        show (if (d :: rest2).length % 3 = 0
              then c :: ',' :: sepGoM (d :: rest2)
              else c :: sepGoM (d :: rest2))
            = (if 3 ≤ (d :: rest2).length ∧ (d :: rest2).length % 3 = 0
              then c :: ',' :: sepGo (d :: rest2)
              else c :: sepGo (d :: rest2)) ++ [',']
        rw [if_pos hc, if_pos ⟨h3, hc⟩, ih hne]
        rfl
      · show (if (d :: rest2).length % 3 = 0
              then c :: ',' :: sepGoM (d :: rest2)
              else c :: sepGoM (d :: rest2))
            = (if 3 ≤ (d :: rest2).length ∧ (d :: rest2).length % 3 = 0
              then c :: ',' :: sepGo (d :: rest2)
              else c :: sepGo (d :: rest2)) ++ [',']
        rw [if_neg hc, if_neg (fun hh => hc hh.2), ih hne]
        rfl

theorem sepGo_reverse (r : List Char) :
    sepGo r.reverse = (groupRev r).reverse :=
  match r with
  | [] => rfl
  | [a] => by simp [sepGo, groupRev]
  | [a, b] => by
    rw [show groupRev [a, b] = [a, b] from rfl]
    exact sepGo_short _ (by simp)
  | [a, b, c] => by
    rw [show groupRev [a, b, c] = [a, b, c] from rfl]
    exact sepGo_short _ (by simp)
  | a :: b :: c :: d :: rest => by
    have ih := sepGo_reverse (d :: rest)
    have hrw : (a :: b :: c :: d :: rest).reverse
        = (d :: rest).reverse ++ [c, b, a] := by simp
    have hne : (d :: rest).reverse ≠ [] := by simp
    rw [hrw, sepGo_append _ _ (by simp) (by simp), sepGoM_eq _ hne, ih,
      sepGo_short [c, b, a] (by simp),
      show groupRev (a :: b :: c :: d :: rest)
        = a :: b :: c :: ',' :: groupRev (d :: rest) from rfl]
    simp

theorem sepGo_eq_commaGrouped (l : List Char) : sepGo l = commaGrouped l := by
  have h := sepGo_reverse l.reverse
  rwa [List.reverse_reverse] at h

theorem string_data_mk (l : List Char) : (String.mk l).data = l := rfl

theorem string_length_mk (l : List Char) : (String.mk l).length = l.length := rfl

theorem padTo_left_eq (w : Nat) (s : String) :
    padTo ' ' true w s = leftAligned w s := by
  by_cases h : w ≤ s.length
  · have h0 : w - s.length = 0 := by omega
    simp [padTo, leftAligned, h, h0]
  · simp [padTo, leftAligned, h]

theorem padTo_right_eq (w : Nat) (s : String) :
    padTo ' ' false w s = rightAligned w s := by
  by_cases h : w ≤ s.length
  · have h0 : w - s.length = 0 := by omega
    simp [padTo, rightAligned, h, h0]
  · simp [padTo, rightAligned, h]

theorem padTo_of_le (fill : Char) (b : Bool) (w : Nat) (s : String)
    (h : w ≤ s.length) : padTo fill b w s = s := by
  simp [padTo, h]

theorem padTo_length (fill : Char) (b : Bool) (w : Nat) (s : String) :
    (padTo fill b w s).length = max w s.length := by
  by_cases h : w ≤ s.length
  · rw [padTo_of_le fill b w s h]
    omega
  · unfold padTo
    rw [if_neg h]
    cases b
    · rw [if_neg (by decide)]
      simp only [String.length_append, string_length_mk, List.length_replicate]
      omega
    · rw [if_pos rfl]
      simp only [String.length_append, string_length_mk, List.length_replicate]
      omega

theorem crop_path_no_sep (s : String) (h : ∀ c ∈ s.data, isPathSep c = false) :
    crop_path s = s := by
  unfold crop_path
  have ht : s.data.reverse.takeWhile (fun c => !(isPathSep c)) = s.data.reverse := by
    rw [List.takeWhile_eq_self_iff]
    intro c hc
    simp [h c (List.mem_reverse.mp hc)]
  rw [ht, List.reverse_reverse]

theorem crop_path_split (u v : List Char) (c : Char) (hc : isPathSep c = true)
    (hv : ∀ d ∈ v, isPathSep d = false) :
    crop_path (String.mk (u ++ c :: v)) = String.mk v := by
  unfold crop_path
  rw [string_data_mk]
  have h1 : (u ++ c :: v).reverse = v.reverse ++ c :: u.reverse := by
    simp
  rw [h1, List.takeWhile_append_of_pos
    (fun d hd => by simp [hv d (List.mem_reverse.mp hd)])]
  have h2 : List.takeWhile (fun c => !(isPathSep c)) (c :: u.reverse) = [] := by
    simp [List.takeWhile_cons, hc]
  rw [h2, List.append_nil, List.reverse_reverse]

/-! Claim theorems. -/

/-- Claim C2: for every non-negative integer input, `insert_separators`
returns the decimal digit string of the input with a comma after every
group of 3 digits counted from the least-significant digit and no
trailing comma after the final digit (`commaGrouped`); in particular
`0 ↦ "0"`, `999 ↦ "999"`, `1000 ↦ "1,000"`, `1234567 ↦ "1,234,567"`. -/
theorem C2_thousands_separators :
    (∀ n : Nat,
      insert_separators (n : Int) = String.mk (commaGrouped (Nat.repr n).data))
    ∧ insert_separators 0 = "0"
    ∧ insert_separators 999 = "999"
    ∧ insert_separators 1000 = "1,000"
    ∧ insert_separators 1234567 = "1,234,567" := by
  refine ⟨?_, by decide, by decide, by decide, by decide⟩
  intro n
  have h1 : intStr (n : Int) = Nat.repr n := by
    unfold intStr
    rw [if_neg (Int.not_lt.mpr (Int.natCast_nonneg n))]
    rw [Int.natAbs_ofNat]
  unfold insert_separators
  rw [h1, sepGo_eq_commaGrouped]

/-- Claim C6: for every input string, `crop_path` returns the substring
strictly after the last occurrence of `/` or `\`, and the input
unchanged when neither occurs; in particular
`"a/b/c.cpp" ↦ "c.cpp"`, `"c.cpp" ↦ "c.cpp"`, `"a\b\c.cpp" ↦ "c.cpp"`. -/
theorem C6_crop_path :
    (∀ s : String, (∀ c ∈ s.data, isPathSep c = false) → crop_path s = s)
    ∧ (∀ (u v : List Char) (c : Char), isPathSep c = true →
        (∀ d ∈ v, isPathSep d = false) →
        crop_path (String.mk (u ++ c :: v)) = String.mk v)
    ∧ crop_path "a/b/c.cpp" = "c.cpp"
    ∧ crop_path "c.cpp" = "c.cpp"
    ∧ crop_path "a\\b\\c.cpp" = "c.cpp" :=
  ⟨crop_path_no_sep, crop_path_split, by decide, by decide, by decide⟩

/-- Witness for C6: the general statements applied at concrete inputs:
`"c.cpp"` has no separator and is returned unchanged, and
`"ab" ++ '/' ++ "c.cpp"` is cropped to `"c.cpp"`. -/
theorem C6_crop_path_witness :
    crop_path "c.cpp" = "c.cpp"
    ∧ crop_path (String.mk ("ab".data ++ '/' :: "c.cpp".data)) = String.mk "c.cpp".data :=
  ⟨C6_crop_path.1 "c.cpp" (by decide),
   C6_crop_path.2.1 "ab".data "c.cpp".data '/' (by decide) (by decide)⟩

/-- Claim C9: for negative inputs the grouping scan of
`insert_separators` runs over the signed decimal string including the
leading minus sign, so a comma lands immediately after the sign exactly
when the magnitude's digit count is a multiple of 3:
`-100 ↦ "-,100"`, `-100000 ↦ "-,100,000"`, but `-1000 ↦ "-1,000"`. -/
theorem C9_negative_inputs :
    (∀ n : Int, n < 0 →
      (insert_separators n).data = sepGo ('-' :: (Nat.repr n.natAbs).data))
    ∧ (∀ ds : List Char, 3 ≤ ds.length → ds.length % 3 = 0 →
      sepGo ('-' :: ds) = '-' :: ',' :: sepGo ds)
    ∧ insert_separators (-100) = "-,100"
    ∧ insert_separators (-100000) = "-,100,000"
    ∧ insert_separators (-1000) = "-1,000" := by
  refine ⟨?_, ?_, by decide, by decide, by decide⟩
  · intro n hn
    unfold insert_separators intStr
    rw [if_pos hn, string_data_mk, String.data_append,
      show ("-" : String).data = ['-'] from rfl, List.singleton_append]
  · intro ds h3 hm
    show (if 3 ≤ ds.length ∧ ds.length % 3 = 0
          then '-' :: ',' :: sepGo ds
          else '-' :: sepGo ds) = '-' :: ',' :: sepGo ds
    rw [if_pos ⟨h3, hm⟩]

/-- Claim C1: every aggregate is rendered as exactly two physical rows
with `|`-separated fields: Row A has the base name of `start.file`
left-aligned in the 30-wide File column, `start.line` right-aligned in
the 6-wide Line column, blank space-padded Count and Average fields and
no Overall field at all; Row B has `end.line`, the count as a plain
integer and the two durations with thousands separators.  The spec's
end-to-end scenario renders to the exact two rows shown. -/
theorem C1_two_rows_per_aggregate :
    (∀ m : MultiMeasurement, print_measurement m = [specRowA m, specRowB m])
    ∧ (∀ m : MultiMeasurement, print_all [m]
        = print_title ++ print_header ++ [specRowA m, specRowB m]
          ++ [String.mk (List.replicate 80 '#')])
    ∧ print_measurement scenario
      = ["a.cpp                         |    10|          |               |",
         "                              |    20|         2|          1,500|          3,000"] := by
  have hpm : ∀ m : MultiMeasurement,
      print_measurement m = [specRowA m, specRowB m] := by
    intro m
    unfold print_measurement specRowA specRowB file_col_width line_col_width
      count_col_width avg_duration_col_width ovr_duration_col_width
    simp only [padTo_left_eq, padTo_right_eq]
    rw [show rightAligned 10 " " = blankField 10 from by decide,
      show rightAligned 15 " " = blankField 15 from by decide]
  refine ⟨hpm, ?_, by decide⟩
  intro m
  unfold print_all
  rw [show print_loop [m] = print_measurement m ++ print_hline '#' from rfl,
    hpm m, show print_hline '#' = [String.mk (List.replicate 80 '#')] from by decide]
  simp [List.append_assoc]

/-- Claim C3: rendering any nonempty sequence emits, after the banner
and header, each aggregate's two rows immediately followed by one
full-width separator line, `-`-filled for every aggregate but the last
and `#`-filled for the last; the loop output has exactly 3 lines (2
rows + 1 separator) per aggregate, hence exactly N separator lines. -/
theorem C3_separator_rule :
    (∀ (ms : List MultiMeasurement) (m : MultiMeasurement),
      print_all (ms ++ [m])
        = print_title ++ print_header
          ++ (ms.map (fun x => print_measurement x
               ++ [String.mk (List.replicate 80 '-')])).flatten
          ++ print_measurement m ++ [String.mk (List.replicate 80 '#')])
    ∧ (∀ ms : List MultiMeasurement, (print_loop ms).length = 3 * ms.length) := by
  constructor
  · intro ms m
    unfold print_all
    have key : ∀ ms : List MultiMeasurement,
        print_loop (ms ++ [m])
          = (ms.map (fun x => print_measurement x
               ++ [String.mk (List.replicate 80 '-')])).flatten
            ++ print_measurement m ++ [String.mk (List.replicate 80 '#')] := by
      intro ms
      induction ms with
      | nil =>
        simp only [List.nil_append, List.map_nil, List.flatten_nil]
        rw [show print_loop [m] = print_measurement m ++ print_hline '#' from rfl,
          show print_hline '#' = [String.mk (List.replicate 80 '#')] from by decide]
      | cons m0 rest ih =>
        cases hrest : rest ++ [m] with
        | nil => exact absurd hrest (by simp)
        | cons m2 tail =>
          rw [List.cons_append, hrest,
            show print_loop (m0 :: m2 :: tail)
              = print_measurement m0 ++ print_hline '-' ++ print_loop (m2 :: tail)
              from rfl,
            ← hrest, ih,
            show print_hline '-' = [String.mk (List.replicate 80 '-')] from by decide]
          simp [List.append_assoc]
    rw [key ms]
    simp [List.append_assoc]
  · intro ms
    induction ms with
    | nil => rfl
    | cons m0 rest ih =>
      cases rest with
      | nil =>
        rw [show print_loop [m0] = print_measurement m0 ++ print_hline '#' from rfl]
        simp [print_measurement, print_hline]
      | cons m2 tail =>
        rw [show print_loop (m0 :: m2 :: tail)
            = print_measurement m0 ++ print_hline '-' ++ print_loop (m2 :: tail)
            from rfl]
        simp only [List.length_append, ih]
        simp [print_measurement, print_hline]
        omega

/-- Claim C5: the title banner is three 80-character lines: lines 1 and
3 are 80 `#` characters; line 2 is 28 `#`, the 23-character title
`" PROFILING WITH SPEEDO "`, one extra `#` (parity correction for the
odd title length), and 28 more `#`. -/
theorem C5_title_banner :
    print_title
      = [String.mk (List.replicate 80 '#'),
         String.mk (List.replicate 28 '#') ++ " PROFILING WITH SPEEDO "
           ++ String.mk ['#'] ++ String.mk (List.replicate 28 '#'),
         String.mk (List.replicate 80 '#')]
    ∧ title.length = 23
    ∧ (80 - title.length) / 2 = 28
    ∧ title.length % 2 = 1
    ∧ print_title.map String.length = [80, 80, 80] := by
  refine ⟨by decide, by decide, by decide, by decide, by decide⟩

/-- Claim C7: rendering zero aggregates emits exactly the 3-line
banner, the column-header row and one `=`-filled separator line, and
nothing else. -/
theorem C7_empty_render :
    print_all [] = print_title ++ print_header
    ∧ print_all []
      = [String.mk (List.replicate 80 '#'),
         String.mk (List.replicate 28 '#') ++ " PROFILING WITH SPEEDO "
           ++ String.mk (List.replicate 29 '#'),
         String.mk (List.replicate 80 '#'),
         "File                          | Line |    Count |  Average [us] |   Overall [us]",
         String.mk (List.replicate 80 '=')] := by
  refine ⟨rfl, by decide⟩

/-- Claim C8: `Printer::print` is `const`: it leaves the owned sequence
unchanged, printing twice in a row yields identical output, and the
output is a function of the stored aggregates alone. -/
theorem C8_print_idempotent :
    ∀ p : Printer,
      (Printer.print p).2 = p
      ∧ (Printer.print (Printer.print p).2).1 = (Printer.print p).1
      ∧ (∀ q : Printer, p.measurements_ = q.measurements_ →
          (Printer.print p).1 = (Printer.print q).1) := by
  intro p
  refine ⟨rfl, rfl, ?_⟩
  intro q h
  show print_all p.measurements_ = print_all q.measurements_
  rw [h]

/-- Witness for C8: applied to two printers holding the same (empty)
sequence. -/
theorem C8_print_idempotent_witness :
    (Printer.print ⟨[]⟩).1 = (Printer.print ⟨[]⟩).1 :=
  (C8_print_idempotent ⟨[]⟩).2.2 ⟨[]⟩ rfl

/-- Witness for C9: the general statements applied at `-100` and at the
digit list `"100"`. -/
theorem C9_negative_inputs_witness :
    (insert_separators (-100)).data = sepGo ('-' :: (Nat.repr ((-100 : Int)).natAbs).data)
    ∧ sepGo ('-' :: "100".data) = '-' :: ',' :: sepGo "100".data :=
  ⟨C9_negative_inputs.1 (-100) (by decide),
   C9_negative_inputs.2.1 "100".data (by decide) (by decide)⟩

/-- Counterexample to claim C4: for `emptyEndBase` (start `"a.cpp"`,
end `"dir/"`) the base names differ (`""` versus `"a.cpp"`), yet the
File field of Row B is rendered empty, so "empty exactly when the base
names are equal" fails in the only-if direction. -/
theorem C4_counterexample :
    crop_path emptyEndBase.«end».file ≠ crop_path emptyEndBase.start.file
    ∧ file_shown_in_row_end emptyEndBase = ""
    ∧ print_measurement emptyEndBase
      = ["a.cpp                         |     1|          |               |",
         "                              |     2|         1|              0|              0"] := by
  refine ⟨by decide, by decide, by decide⟩

/-- Claim C4 (amended): the File field of Row B is left empty exactly
when the base name of `end.file` equals the base name of `start.file`
or is itself empty; whenever the two base names differ, Row B shows the
base name of `end.file` (which is the empty string when the path ends
in a separator).  Equality of base names is what matters, so the field
is suppressed even when the full path strings differ. -/
theorem C4_same_file_suppression :
    ∀ m : MultiMeasurement,
      (file_shown_in_row_end m = ""
        ↔ (crop_path m.«end».file = crop_path m.start.file
            ∨ crop_path m.«end».file = ""))
      ∧ (crop_path m.«end».file ≠ crop_path m.start.file →
          file_shown_in_row_end m = crop_path m.«end».file) := by
  intro m
  unfold file_shown_in_row_end
  by_cases h : crop_path m.start.file = crop_path m.«end».file
  · rw [if_pos h]
    refine ⟨⟨fun _ => Or.inl h.symm, fun _ => rfl⟩, fun hne => absurd h.symm hne⟩
  · rw [if_neg h]
    refine ⟨⟨fun he => Or.inr he, fun hor => ?_⟩, fun _ => rfl⟩
    rcases hor with h1 | h2
    · exact absurd h1.symm h
    · exact h2

/-- Witness for the amended C4: for `twoFiles` (start `"a.cpp"`, end
`"b.cpp"`) the base names differ and Row B shows the end base name. -/
theorem C4_same_file_suppression_witness :
    file_shown_in_row_end twoFiles = crop_path twoFiles.«end».file :=
  (C4_same_file_suppression twoFiles).2 (by decide)

/-- Counterexample to claim C10: for `wideFile30`, whose cropped start
file name is exactly 30 characters long, the full name is emitted but
no row grows wider than the nominal 80 columns: Row A is 65 characters
and Row B is 80. -/
theorem C10_counterexample :
    30 ≤ (crop_path wideFile30.start.file).length
    ∧ (print_measurement wideFile30).map String.length = [65, 80]
    ∧ (∀ r ∈ print_measurement wideFile30, ¬(80 < r.length)) := by
  refine ⟨by decide, by decide, by decide⟩

/-- Claim C10 (amended): the declared column widths are minimum widths
only and no field value is ever truncated: a value at least as long as
its column is emitted in full, a padded field occupies
`max width length` characters, and when the cropped start file name is
strictly longer than 30 characters Row A starts with the full name,
the following `|` sits right after it (shifted right), and the row
grows wider than its nominal 65-character width (Row B's nominal width
being 80). -/
theorem C10_min_widths :
    (∀ (fill : Char) (b : Bool) (w : Nat) (s : String),
      w ≤ s.length → padTo fill b w s = s)
    ∧ (∀ (fill : Char) (b : Bool) (w : Nat) (s : String),
      (padTo fill b w s).length = max w s.length)
    ∧ (∀ m : MultiMeasurement, 30 < (crop_path m.start.file).length →
        ((print_measurement m).headI).data
          = (crop_path m.start.file).data
            ++ '|' :: (rightAligned 6 (intStr m.start.line) ++ "|"
                 ++ blankField 10 ++ "|" ++ blankField 15 ++ "|").data
        ∧ 65 < ((print_measurement m).headI).length) := by
  refine ⟨padTo_of_le, padTo_length, ?_⟩
  intro m h30
  have hfile : padTo ' ' true file_col_width (crop_path m.start.file)
      = crop_path m.start.file := by
    apply padTo_of_le
    unfold file_col_width
    omega
  constructor
  · show (padTo ' ' true file_col_width (crop_path m.start.file) ++ "|"
        ++ padTo ' ' false line_col_width (intStr m.start.line) ++ "|"
        ++ padTo ' ' false count_col_width " " ++ "|"
        ++ padTo ' ' false avg_duration_col_width " " ++ "|").data = _
    rw [hfile,
      show padTo ' ' false count_col_width " " = blankField 10 from by decide,
      show padTo ' ' false avg_duration_col_width " " = blankField 15 from by decide,
      show padTo ' ' false line_col_width (intStr m.start.line)
        = rightAligned 6 (intStr m.start.line) from padTo_right_eq 6 _]
    simp [String.data_append, List.append_assoc]
  · show 65 < (padTo ' ' true file_col_width (crop_path m.start.file) ++ "|"
        ++ padTo ' ' false line_col_width (intStr m.start.line) ++ "|"
        ++ padTo ' ' false count_col_width " " ++ "|"
        ++ padTo ' ' false avg_duration_col_width " " ++ "|").length
    rw [hfile]
    simp only [String.length_append, padTo_length, line_col_width,
      count_col_width, avg_duration_col_width]
    have h1 : (" " : String).length = 1 := rfl
    have h2 : ("|" : String).length = 1 := rfl
    rw [h1, h2]
    omega

/-- Witness for the amended C10: applied to `wideFile31`, whose cropped
start file name is 31 characters long, and to an overlong field. -/
theorem C10_min_widths_witness :
    (((print_measurement wideFile31).headI).data
        = (crop_path wideFile31.start.file).data
          ++ '|' :: (rightAligned 6 (intStr wideFile31.start.line) ++ "|"
               ++ blankField 10 ++ "|" ++ blankField 15 ++ "|").data
      ∧ 65 < ((print_measurement wideFile31).headI).length)
    ∧ padTo '#' false 2 "abc" = "abc" :=
  ⟨C10_min_widths.2.2 wideFile31 (by decide),
   C10_min_widths.1 '#' false 2 "abc" (by decide)⟩

end Speedo
